import Mathlib

/-!
Shallow embedding of the drawing core of `src/src/components/ToolBar.tsx`
(class `CanvasManager` and the pure path helpers below it), together with
theorems about the spec's claims.

Coordinates are JS numbers used only for exact arithmetic (subtraction,
addition, squaring, comparison) in the claims at hand, so they are embedded
as `Int`.  JS arrays are `List`s; a JS `Set<string>` kept in insertion order
is a duplicate-free `List String`; reference identity in the source
(`newPaths !== paths`) is modelled by the branch condition under which the
source returns its argument unchanged (a length comparison, see
`removePaths` / `addPaths`).
-/

namespace Draw

/-- Model of `Point` from `services/PictureService`: `{x: number, y: number}`. -/
structure Point where
  x : Int
  y : Int
deriving DecidableEq, Repr

/-- Model of `Path` from `services/PictureService`:
`{id: string, color: string, width: number, points: Point[]}`. -/
structure Path where
  id : String
  color : String
  width : Int
  points : List Point
deriving DecidableEq, Repr

/-- Model of `pushPoint(points, point)` (ToolBar.tsx:986-998): returns early when the
appended point equals the last point coordinate-wise, otherwise appends.
The JS version mutates `points` in place; the embedding returns the new list.
(The `points == null` early return is dropped: every call site passes a
real array.) -/
def pushPoint (points : List Point) (point : Point) : List Point :=
  match points.getLast? with
  | some last =>
    if last.x = point.x ∧ last.y = point.y then points
    else points ++ [point]
  | none => points ++ [point]

/-- Model of `isCloser(p1, p2, r)` (ToolBar.tsx:1012-1015): squared-distance
comparison `(x1-x2)**2 + (y1-y2)**2 <= r**2`, no square root. -/
def isCloser (p1 p2 : Point) (r : Int) : Bool :=
  decide ((p1.x - p2.x) ^ 2 + (p1.y - p2.y) ^ 2 ≤ r ^ 2)

/-- Model of `erase(paths, p1)` (ToolBar.tsx:1000-1010): collects, in order, the id of
every path one of whose points is `isCloser` to `p1` with the fixed radius 3.
The JS loop pushing ids is embedded as filter-then-map. -/
def erase (paths : List Path) (p1 : Point) : List String :=
  (paths.filter (fun path => path.points.any (fun p2 => isCloser p1 p2 3))).map Path.id

/-- Model of `removePaths(paths, pathIdsToRemove)` (ToolBar.tsx:1017-1023): filters
matching ids out; returns `paths` itself (same reference) when the filter
removed nothing, detected by the length comparison. -/
def removePaths (paths : List Path) (pathIdsToRemove : List String) : List Path :=
  if (paths.filter (fun path => !(pathIdsToRemove.contains path.id))).length = paths.length
  then paths
  else paths.filter (fun path => !(pathIdsToRemove.contains path.id))

/-- The mutable-`idSet` filter inside `addPaths` (ToolBar.tsx:1027-1031):
keeps a path iff its id is not yet in `idSet`, adding the id as it goes, so a
batch-internal duplicate id is kept only at its first occurrence. -/
def pathsToReallyAdd (idSet : List String) (pathsToAdd : List Path) : List Path :=
  match pathsToAdd with
  | [] => []
  | p :: rest =>
    if p.id ∈ idSet then pathsToReallyAdd idSet rest
    else p :: pathsToReallyAdd (p.id :: idSet) rest

/-- Model of `addPaths(paths, pathsToAdd)` (ToolBar.tsx:1025-1034): appends the paths
whose id is new; returns `paths` itself (same reference) when nothing is to
be added, detected by `pathsToReallyAdd.length === 0`. -/
def addPaths (paths : List Path) (pathsToAdd : List Path) : List Path :=
  if (pathsToReallyAdd (paths.map Path.id) pathsToAdd).length = 0 then paths
  else paths ++ pathsToReallyAdd (paths.map Path.id) pathsToAdd

/-- Model of `removePathsByIds(paths, pathIdsToRemove)` (ToolBar.tsx:1036-1041):
same no-op-by-identity contract as `removePaths`, taking the ids as a list. -/
def removePathsByIds (paths : List Path) (pathIdsToRemove : List String) : List Path :=
  if (paths.filter (fun path => !(pathIdsToRemove.contains path.id))).length = paths.length
  then paths
  else paths.filter (fun path => !(pathIdsToRemove.contains path.id))

/-- Model of `addToSet(set, items)` (ToolBar.tsx:1043-1047) on a JS `Set<string>`
modelled as an insertion-ordered duplicate-free list: add each item not yet
present at the end. -/
def addToSet (set : List String) (items : List String) : List String :=
  items.foldl (fun acc i => if acc.contains i then acc else acc ++ [i]) set

/-- Model of `Tool` from `types/Tool`: the three tools dispatched on by the
`switch (this.tool)` statements (`'pen' | 'eraser' | 'hand'`). -/
inductive Tool where
  | pen
  | eraser
  | hand
deriving DecidableEq, Repr

/-- A frame callback scheduled through `requestAnimationFrame`: either the
closure of `tickDraw` or the closure of `tickScroll`. -/
inductive Frame where
  | drawFrame
  | scrollFrame
deriving DecidableEq, Repr

/-- The mutable fields of `CanvasManager` (ToolBar.tsx:498-536) that the
input handlers and the frame scheduler read and write.  `frameQueue` models
the FIFO of `requestAnimationFrame` callbacks not yet run.  Canvas/DPR/size
fields take no part in the claims and are omitted. -/
structure CanvasManager where
  tool : Tool
  palmRejection : Bool
  paths : List Path
  drawingPath : Option Path
  erasingPathIds : Option (List String)
  scrollLeft : Int
  scrollTop : Int
  bufferedScrollLeft : Int
  bufferedScrollTop : Int
  tickingDraw : Bool
  tickingScroll : Bool
  prevX : Int
  prevY : Int
  handScrollingByMouse : Bool
  offsetLeft : Int
  offsetTop : Int
  frameQueue : List Frame
deriving DecidableEq, Repr

/-- One call of `pictureService.addAndRemovePaths(pictureId, added,
removedIds)`: the outbound sync batch. -/
structure Emit where
  added : Option (List Path)
  removedIds : Option (List String)
deriving DecidableEq, Repr

/-- Model of `tickDraw()` (ToolBar.tsx:935-943): returns unchanged while a draw frame
is pending, otherwise sets the pending flag and schedules a draw frame. -/
def tickDraw (s : CanvasManager) : CanvasManager :=
  if s.tickingDraw then s
  else { s with tickingDraw := true, frameQueue := s.frameQueue ++ [Frame.drawFrame] }

/-- Model of `tickScroll()` (ToolBar.tsx:945-955): same coalescing for the scroll
channel. -/
def tickScroll (s : CanvasManager) : CanvasManager :=
  if s.tickingScroll then s
  else { s with tickingScroll := true, frameQueue := s.frameQueue ++ [Frame.scrollFrame] }

/-- The atomic statements inside the two `requestAnimationFrame` closures. -/
inductive FrameStep where
  | invokeDraw
  | clearDrawFlag
  | commitScroll
  | clearScrollFlag
deriving DecidableEq, Repr

/-- The statement sequence of each closure, in source order:
`tickDraw` schedules `() => { this.draw(); this.tickingDraw = false }` and
`tickScroll` schedules `() => { this.scrollLeft = this.bufferedScrollLeft;
this.scrollTop = this.bufferedScrollTop; this.tickingScroll = false;
this.draw() }`. -/
def frameSteps : Frame → List FrameStep
  | Frame.drawFrame => [FrameStep.invokeDraw, FrameStep.clearDrawFlag]
  | Frame.scrollFrame => [FrameStep.commitScroll, FrameStep.clearScrollFlag, FrameStep.invokeDraw]

/-- Effect of one closure statement.  `draw()` itself is pure rendering and
leaves the manager state alone; `cb` is what the invoked draw callback does
to the state (`id` for the real `draw`, `tickDraw`/`tickScroll` to express
the spec's counterfactual of a callback that re-requests a channel). -/
def execStep (cb : CanvasManager → CanvasManager) (s : CanvasManager) : FrameStep → CanvasManager
  | FrameStep.invokeDraw => cb s
  | FrameStep.clearDrawFlag => { s with tickingDraw := false }
  | FrameStep.commitScroll =>
    { s with scrollLeft := s.bufferedScrollLeft, scrollTop := s.bufferedScrollTop }
  | FrameStep.clearScrollFlag => { s with tickingScroll := false }

/-- Run one dequeued frame callback to completion. -/
def runFrame (cb : CanvasManager → CanvasManager) (s : CanvasManager) (f : Frame) : CanvasManager :=
  (frameSteps f).foldl (execStep cb) s

/-- A mouse event's client coordinates. -/
structure MouseEvent where
  clientX : Int
  clientY : Int
deriving DecidableEq, Repr

/-- One member of a `TouchEvent`'s `changedTouches` list. -/
structure Touch where
  clientX : Int
  clientY : Int
  touchType : String
deriving DecidableEq, Repr

/-- A touch event, reduced to its `changedTouches` list. -/
structure TouchEvent where
  changedTouches : List Touch
deriving DecidableEq, Repr

/-- Model of `getPointFromMouseEvent(event, ignoreScroll)` (ToolBar.tsx:620-630). -/
def getPointFromMouseEvent (s : CanvasManager) (event : MouseEvent) (ignoreScroll : Bool) : Point :=
  let x := event.clientX - s.offsetLeft
  let y := event.clientY - s.offsetTop
  if ignoreScroll then { x := x, y := y }
  else { x := x + s.scrollLeft, y := y + s.scrollTop }

/-- Model of `getTouch(event, dontCareTouchType)` (ToolBar.tsx:632-645): without palm
rejection (or when told not to care) the first changed touch; otherwise the
first changed touch whose `touchType` is `'stylus'`. -/
def getTouch (s : CanvasManager) (event : TouchEvent) (dontCareTouchType : Bool) : Option Touch :=
  if !s.palmRejection || dontCareTouchType then event.changedTouches.head?
  else event.changedTouches.find? (fun t => t.touchType == "stylus")

/-- Model of `getPointFromTouchEvent(event, ignoreScrollAndTouchType)`
(ToolBar.tsx:647-661). -/
def getPointFromTouchEvent (s : CanvasManager) (event : TouchEvent)
    (ignoreScrollAndTouchType : Bool) : Option Point :=
  (getTouch s event ignoreScrollAndTouchType).map (fun touch =>
    let x := touch.clientX - s.offsetLeft
    let y := touch.clientY - s.offsetTop
    if ignoreScrollAndTouchType then { x := x, y := y }
    else { x := x + s.scrollLeft, y := y + s.scrollTop })

/-- Model of `handleMouseMove(event)` (ToolBar.tsx:693-726). -/
def handleMouseMove (s : CanvasManager) (event : MouseEvent) : CanvasManager :=
  match s.tool with
  | Tool.pen =>
    match s.drawingPath with
    | some dp =>
      let dp2 := { dp with points := pushPoint dp.points (getPointFromMouseEvent s event false) }
      tickDraw { s with drawingPath := some dp2 }
    | none => s
  | Tool.eraser =>
    match s.erasingPathIds with
    | some ids =>
      let ids2 := addToSet ids (erase s.paths (getPointFromMouseEvent s event false))
      tickDraw { s with erasingPathIds := some ids2 }
    | none => s
  | Tool.hand =>
    if s.handScrollingByMouse then
      let p := getPointFromMouseEvent s event true
      tickScroll { s with
        bufferedScrollLeft := s.bufferedScrollLeft + (s.prevX - p.x),
        bufferedScrollTop := s.bufferedScrollTop + (s.prevY - p.y),
        prevX := p.x, prevY := p.y }
    else s

/-- Model of `handleGlobalMouseUp()` (ToolBar.tsx:728-759), paired with the list of
outbound batches it emits.  The source's reference test
`newPaths !== paths` is modelled by the length comparison, since
`removePaths` returns its argument itself exactly when the lengths agree. -/
def handleGlobalMouseUp (s : CanvasManager) : CanvasManager × List Emit :=
  match s.tool with
  | Tool.pen =>
    match s.drawingPath with
    | some dp =>
      if dp.points.length > 1 then
        ({ s with paths := s.paths ++ [dp], drawingPath := none },
         [{ added := some [dp], removedIds := none }])
      else ({ s with drawingPath := none }, [])
    | none => (s, [])
  | Tool.eraser =>
    match s.erasingPathIds with
    | some ids =>
      let newPaths := removePaths s.paths ids
      if newPaths.length = s.paths.length then ({ s with erasingPathIds := none }, [])
      else ({ s with paths := newPaths, erasingPathIds := none },
            [{ added := none, removedIds := some ids }])
    | none => (s, [])
  | Tool.hand => ({ s with handScrollingByMouse := false }, [])

/-- The `default:` branch shared by the touch handlers' fall-through
(ToolBar.tsx:886-896 for `handleTouchEnd`): pan accumulation.  This is the
branch with the copy-paste slip: both increments land on
`bufferedScrollLeft` (`this.bufferedScrollLeft += this.prevX - p.x;
this.bufferedScrollLeft += this.prevY - p.y`). -/
def touchEndPan (s : CanvasManager) (event : TouchEvent) : CanvasManager :=
  match getPointFromTouchEvent s event true with
  | none => s
  | some p =>
    tickScroll { s with
      bufferedScrollLeft := s.bufferedScrollLeft + (s.prevX - p.x) + (s.prevY - p.y),
      prevX := p.x, prevY := p.y }

/-- The `default:` branch of `handleTouchMove` (ToolBar.tsx:829-839): pan
accumulation, per axis (this one is correct). -/
def touchMovePan (s : CanvasManager) (event : TouchEvent) : CanvasManager :=
  match getPointFromTouchEvent s event true with
  | none => s
  | some p =>
    tickScroll { s with
      bufferedScrollLeft := s.bufferedScrollLeft + (s.prevX - p.x),
      bufferedScrollTop := s.bufferedScrollTop + (s.prevY - p.y),
      prevX := p.x, prevY := p.y }

/-- Model of `handleTouchMove(event)` (ToolBar.tsx:800-841).  The `case 'pen':` and
`case 'eraser':` bodies fall through to the next case exactly when their
point lookup returns `null`, which the embedding encodes by matching on the
same lookup. -/
def handleTouchMove (s : CanvasManager) (event : TouchEvent) : CanvasManager :=
  match s.tool with
  | Tool.pen =>
    match getPointFromTouchEvent s event false with
    | some p =>
      match s.drawingPath with
      | some dp =>
        tickDraw { s with drawingPath := some { dp with points := pushPoint dp.points p } }
      | none => s
    | none => touchMovePan s event
  | Tool.eraser =>
    match getPointFromTouchEvent s event false with
    | some p =>
      match s.erasingPathIds with
      | some ids => tickDraw { s with erasingPathIds := some (addToSet ids (erase s.paths p)) }
      | none => s
    | none => touchMovePan s event
  | Tool.hand => touchMovePan s event

/-- Model of `handleTouchEnd(event)` (ToolBar.tsx:843-898), with its emitted batches.
Fall-through as in `handleTouchMove`: a `null` point in the pen case lands
in the eraser case, whose point lookup is the same and again `null`, so it
lands in the `default:` pan branch. -/
def handleTouchEnd (s : CanvasManager) (event : TouchEvent) : CanvasManager × List Emit :=
  match s.tool with
  | Tool.pen =>
    match getPointFromTouchEvent s event false with
    | some p =>
      match s.drawingPath with
      | some dp =>
        let newPoints := pushPoint dp.points p
        if newPoints.length > 1 then
          ({ s with paths := s.paths ++ [{ dp with points := newPoints }], drawingPath := none },
           [{ added := some [{ dp with points := newPoints }], removedIds := none }])
        else ({ s with drawingPath := none }, [])
      | none => (s, [])
    | none => (touchEndPan s event, [])
  | Tool.eraser =>
    match getPointFromTouchEvent s event false with
    | some p =>
      match s.erasingPathIds with
      | some ids =>
        let ids2 := addToSet ids (erase s.paths p)
        let newPaths := removePaths s.paths ids2
        if newPaths.length = s.paths.length then ({ s with erasingPathIds := none }, [])
        else ({ s with paths := newPaths, erasingPathIds := none },
              [{ added := none, removedIds := some ids2 }])
      | none => (s, [])
    | none => (touchEndPan s event, [])
  | Tool.hand => (touchEndPan s event, [])

/-- A concrete `CanvasManager` with every field at its initial value
(ToolBar.tsx:498-536 field initializers), used to build concrete states. -/
def baseManager : CanvasManager :=
  { tool := Tool.pen, palmRejection := false, paths := [], drawingPath := none,
    erasingPathIds := none, scrollLeft := 0, scrollTop := 0, bufferedScrollLeft := 0,
    bufferedScrollTop := 0, tickingDraw := false, tickingScroll := false, prevX := 0,
    prevY := 0, handScrollingByMouse := false, offsetLeft := 0, offsetTop := 0,
    frameQueue := [] }

/-- A concrete path with id `"x"`, as in the duplicate-delivery scenario. -/
def xPathA : Path :=
  { id := "x", color := "#000", width := 3, points := [Point.mk 0 0, Point.mk 1 1] }

/-- A second concrete path sharing the id `"x"` but with different points. -/
def xPathB : Path :=
  { id := "x", color := "#000", width := 3, points := [Point.mk 2 2, Point.mk 3 3] }

/-- A degenerate in-progress path with a single recorded point. -/
def onePointPath : Path := { id := "d1", color := "#000", width := 3, points := [Point.mk 0 0] }

/-- An in-progress path with two distinct recorded points. -/
def twoPointPath : Path :=
  { id := "d2", color := "#000", width := 3, points := [Point.mk 0 0, Point.mk 5 5] }

/-- Pen tool, one-point gesture in progress. -/
def drawStateOne : CanvasManager :=
  { baseManager with tool := Tool.pen, drawingPath := some onePointPath }

/-- Pen tool, two-point gesture in progress. -/
def drawStateTwo : CanvasManager :=
  { baseManager with tool := Tool.pen, drawingPath := some twoPointPath }

/-- A touch event whose single changed touch is a finger at client
coordinates `(0, 0)`. -/
def touchAtOrigin : TouchEvent :=
  { changedTouches := [{ clientX := 0, clientY := 0, touchType := "direct" }] }

/-- Eraser tool with one committed path of id `"x"` and an accumulated id
set that hits it. -/
def eraseStateHit : CanvasManager :=
  { baseManager with tool := Tool.eraser, paths := [xPathA], erasingPathIds := some ["x"] }

/-- Eraser tool with one committed path of id `"x"` and an accumulated id
set that misses every path. -/
def eraseStateMiss : CanvasManager :=
  { baseManager with tool := Tool.eraser, paths := [xPathA], erasingPathIds := some ["y"] }

/-- Hand tool panning by mouse, anchor at `(100, 100)`. -/
def panMouseState : CanvasManager :=
  { baseManager with tool := Tool.hand, handScrollingByMouse := true, prevX := 100, prevY := 100 }

/-- Hand tool panning by touch, anchor at `(100, 100)`. -/
def panTouchState : CanvasManager :=
  { baseManager with tool := Tool.hand, prevX := 100, prevY := 100 }

/-- A touch event whose single changed touch is a finger at client
coordinates `(90, 95)`. -/
def touchAt9095 : TouchEvent :=
  { changedTouches := [{ clientX := 90, clientY := 95, touchType := "direct" }] }

/-- A state in which a draw frame has been requested and is pending. -/
def pendingDrawState : CanvasManager := { baseManager with tickingDraw := true }

/-- A state in which a scroll-apply frame has been requested and is
pending. -/
def pendingScrollState : CanvasManager := { baseManager with tickingScroll := true }

/-! ### Helper lemmas -/

theorem getLast?_pushPoint (pts : List Point) (pt : Point) :
    (pushPoint pts pt).getLast? = some pt := by
  unfold pushPoint
  cases h : pts.getLast? with
  | none => simp [List.getLast?_concat]
  | some last =>
    by_cases hc : last.x = pt.x ∧ last.y = pt.y
    · have : last = pt := by
        cases last; cases pt
        simp only [Point.mk.injEq]
        exact hc
      simp [hc, h, this]
    · simp [hc, List.getLast?_concat]

theorem pushPoint_eq_self (pts : List Point) (pt last : Point)
    (h : pts.getLast? = some last) (hx : last.x = pt.x) (hy : last.y = pt.y) :
    pushPoint pts pt = pts := by
  unfold pushPoint
  rw [h]
  simp [hx, hy]

theorem pushPoint_append (pts : List Point) (pt : Point)
    (h : pts.getLast? ≠ some pt) : pushPoint pts pt = pts ++ [pt] := by
  unfold pushPoint
  cases hl : pts.getLast? with
  | none => rfl
  | some last =>
    have hne : ¬(last.x = pt.x ∧ last.y = pt.y) := by
      intro hc
      apply h
      rw [hl]
      congr 1
      cases last; cases pt
      simp only [Point.mk.injEq]
      exact hc
    simp [hne]

theorem pushPoint_idem (pts : List Point) (pt : Point) :
    pushPoint (pushPoint pts pt) pt = pushPoint pts pt :=
  pushPoint_eq_self _ _ pt (getLast?_pushPoint pts pt) rfl rfl

theorem filter_idem {α : Type} (l : List α) (p : α → Bool) :
    (l.filter p).filter p = l.filter p := by
  simp [List.filter_filter]

theorem filter_removePathsByIds (S : List Path) (L : List String) :
    (removePathsByIds S L).filter (fun path => !(L.contains path.id))
      = removePathsByIds S L := by
  unfold removePathsByIds
  by_cases h : (S.filter (fun path => !(L.contains path.id))).length = S.length
  · simp only [h, if_true]
    exact (List.filter_sublist S).eq_of_length h
  · simp only [h, if_false]
    exact filter_idem _ _

theorem removePathsByIds_eq_self_of_filter (X : List Path) (L : List String)
    (h : X.filter (fun path => !(L.contains path.id)) = X) :
    removePathsByIds X L = X := by
  unfold removePathsByIds
  simp only [h, if_true, if_pos, eq_self_iff_true]

theorem pathsToReallyAdd_eq_nil (idSet : List String) (P : List Path)
    (h : ∀ q ∈ P, q.id ∈ idSet) : pathsToReallyAdd idSet P = [] := by
  induction P with
  | nil => rfl
  | cons p rest ih =>
    unfold pathsToReallyAdd
    have hp : p.id ∈ idSet := h p (List.mem_cons_self p rest)
    rw [if_pos hp]
    exact ih (fun q hq => h q (List.mem_cons_of_mem p hq))

theorem mem_ids_pathsToReallyAdd (idSet : List String) (P : List Path) :
    ∀ q ∈ P, q.id ∈ idSet ∨ q.id ∈ (pathsToReallyAdd idSet P).map Path.id := by
  induction P generalizing idSet with
  | nil => intro q hq; cases hq
  | cons p rest ih =>
    intro q hq
    unfold pathsToReallyAdd
    by_cases hp : p.id ∈ idSet
    · rw [if_pos hp]
      rcases List.mem_cons.mp hq with rfl | hq2
      · exact Or.inl hp
      · exact ih idSet q hq2
    · rw [if_neg hp, List.map_cons]
      rcases List.mem_cons.mp hq with rfl | hq2
      · exact Or.inr (List.mem_cons_self _ _)
      · rcases ih (p.id :: idSet) q hq2 with hin | hin
        · rcases List.mem_cons.mp hin with heq | hin2
          · exact Or.inr (by rw [heq]; exact List.mem_cons_self _ _)
          · exact Or.inl hin2
        · exact Or.inr (List.mem_cons_of_mem _ hin)

theorem nodup_disjoint_pathsToReallyAdd (idSet : List String) (P : List Path) :
    ((pathsToReallyAdd idSet P).map Path.id).Nodup
    ∧ ∀ x ∈ (pathsToReallyAdd idSet P).map Path.id, x ∉ idSet := by
  induction P generalizing idSet with
  | nil =>
    refine ⟨List.nodup_nil, ?_⟩
    intro x hx
    cases hx
  | cons p rest ih =>
    unfold pathsToReallyAdd
    by_cases hp : p.id ∈ idSet
    · rw [if_pos hp]
      exact ih idSet
    · rw [if_neg hp, List.map_cons]
      obtain ⟨hnd, hdis⟩ := ih (p.id :: idSet)
      refine ⟨List.nodup_cons.mpr ⟨?_, hnd⟩, ?_⟩
      · intro hmem
        exact (hdis _ hmem) (List.mem_cons_self _ _)
      · intro x hx
        rcases List.mem_cons.mp hx with rfl | hx2
        · exact hp
        · intro hxid
          exact (hdis x hx2) (List.mem_cons_of_mem _ hxid)

theorem find?_mem_pathsToReallyAdd (idSet : List String) (P : List Path) (x : String) (q : Path)
    (hx : x ∉ idSet) (hf : P.find? (fun p => p.id == x) = some q) :
    q ∈ pathsToReallyAdd idSet P := by
  induction P generalizing idSet with
  | nil => cases hf
  | cons p rest ih =>
    by_cases hpx : (p.id == x) = true
    · have hq : p = q := by
        rw [List.find?_cons_of_pos rest hpx] at hf
        injection hf
      have hpid : p.id = x := eq_of_beq hpx
      have hpnot : p.id ∉ idSet := by rw [hpid]; exact hx
      unfold pathsToReallyAdd
      rw [if_neg hpnot, hq]
      exact List.mem_cons_self _ _
    · rw [List.find?_cons_of_neg rest hpx] at hf
      have hne : p.id ≠ x := by
        intro he
        exact hpx (by rw [he]; exact beq_self_eq_true x)
      unfold pathsToReallyAdd
      by_cases hp : p.id ∈ idSet
      · rw [if_pos hp]
        exact ih idSet hx hf
      · rw [if_neg hp]
        refine List.mem_cons_of_mem _ (ih (p.id :: idSet) ?_ hf)
        intro hmem
        rcases List.mem_cons.mp hmem with heq | hm
        · exact hne heq.symm
        · exact hx hm

theorem mem_ids_addPaths (S P : List Path) : ∀ q ∈ P, q.id ∈ (addPaths S P).map Path.id := by
  intro q hq
  unfold addPaths
  split
  · next h0 =>
    rcases mem_ids_pathsToReallyAdd (S.map Path.id) P q hq with h | h
    · exact h
    · rw [List.length_eq_zero.mp h0] at h
      cases h
  · next h0 =>
    rw [List.map_append, List.mem_append]
    rcases mem_ids_pathsToReallyAdd (S.map Path.id) P q hq with h | h
    · exact Or.inl h
    · exact Or.inr h

theorem ids_subset_addPaths (S P : List Path) (x : String)
    (hx : x ∈ S.map Path.id) : x ∈ (addPaths S P).map Path.id := by
  unfold addPaths
  split
  · exact hx
  · rw [List.map_append, List.mem_append]
    exact Or.inl hx

theorem nodup_ids_addPaths (S P : List Path) (h : (S.map Path.id).Nodup) :
    ((addPaths S P).map Path.id).Nodup := by
  unfold addPaths
  split
  · exact h
  · rw [List.map_append, List.nodup_append]
    obtain ⟨hnd, hdis⟩ := nodup_disjoint_pathsToReallyAdd (S.map Path.id) P
    exact ⟨h, hnd, fun a ha hb => (hdis a hb) ha⟩

theorem addPaths_eq_self (X P : List Path) (h : ∀ q ∈ P, q.id ∈ X.map Path.id) :
    addPaths X P = X := by
  unfold addPaths
  rw [pathsToReallyAdd_eq_nil _ _ h]
  simp

theorem length_filter_id_eq_one (L : List Path) (x : String)
    (h : (L.map Path.id).Nodup) (hx : x ∈ L.map Path.id) :
    (L.filter (fun p => p.id == x)).length = 1 := by
  induction L with
  | nil => cases hx
  | cons p rest ih =>
    rw [List.map_cons, List.nodup_cons] at h
    obtain ⟨hnotin, hnd⟩ := h
    rcases List.mem_cons.mp hx with rfl | hx2
    · rw [List.filter_cons, if_pos (beq_self_eq_true p.id)]
      have hrest : rest.filter (fun q => q.id == p.id) = [] := by
        rw [List.filter_eq_nil_iff]
        intro q hq hbeq
        exact hnotin ((eq_of_beq hbeq) ▸ List.mem_map_of_mem Path.id hq)
      rw [hrest]
      rfl
    · have hne : ¬((p.id == x) = true) := by
        intro hbeq
        exact hnotin ((eq_of_beq hbeq) ▸ hx2)
      rw [List.filter_cons, if_neg hne]
      exact ih hnd hx2

/-! ### C8 -/

/-- C8: `mergeRemove` (`removePathsByIds`) is idempotent: removing the same
id list twice gives the same stroke set as removing it once. -/
theorem C8_mergeRemove_idempotent : ∀ (S : List Path) (L : List String),
    removePathsByIds (removePathsByIds S L) L = removePathsByIds S L := by
  intro S L
  exact removePathsByIds_eq_self_of_filter _ _ (filter_removePathsByIds S L)

/-! ### C9 -/

/-- C9: `appendPoint` (`pushPoint`) is a no-op when the appended point has
exactly the coordinates of the path's last point, otherwise it appends at
the end; hence appending the same point twice leaves the length as after the
first append. -/
theorem C9_appendPoint_dedup (pts : List Point) (pt : Point) :
    (∀ last, pts.getLast? = some last → last.x = pt.x → last.y = pt.y →
       pushPoint pts pt = pts)
    ∧ (pts.getLast? ≠ some pt → pushPoint pts pt = pts ++ [pt])
    ∧ pushPoint (pushPoint pts pt) pt = pushPoint pts pt
    ∧ (pushPoint (pushPoint pts pt) pt).length = (pushPoint pts pt).length := by
  refine ⟨fun last hl hx hy => pushPoint_eq_self pts pt last hl hx hy,
    fun h => pushPoint_append pts pt h, pushPoint_idem pts pt, ?_⟩
  rw [pushPoint_idem pts pt]

/-! ### C1, C7, C10 -/

/-- C1: `mergeAdd` (`addPaths`) is idempotent — adding the same batch twice
equals adding it once — and after two sequential added batches the first of
which carries a path with id `x`, a stroke set with pairwise-distinct ids
contains exactly one path with id `x` (duplicate delivery is safe). -/
theorem C1_mergeAdd_idempotent :
    (∀ (S P : List Path), addPaths (addPaths S P) P = addPaths S P)
    ∧ (∀ (S P1 P2 : List Path) (x : String),
        (S.map Path.id).Nodup → x ∈ P1.map Path.id →
        ((addPaths (addPaths S P1) P2).filter (fun p => p.id == x)).length = 1) := by
  constructor
  · intro S P
    exact addPaths_eq_self _ _ (mem_ids_addPaths S P)
  · intro S P1 P2 x hnd hx
    obtain ⟨q, hq, hqid⟩ := List.mem_map.mp hx
    have h1 : x ∈ (addPaths S P1).map Path.id := hqid ▸ mem_ids_addPaths S P1 q hq
    have h2 : x ∈ (addPaths (addPaths S P1) P2).map Path.id := ids_subset_addPaths _ P2 x h1
    have hnd2 : ((addPaths (addPaths S P1) P2).map Path.id).Nodup :=
      nodup_ids_addPaths _ _ (nodup_ids_addPaths _ _ hnd)
    exact length_filter_id_eq_one _ x hnd2 h2

/-- Witness for C1: two batches both carrying id `"x"` leave exactly one
path with id `"x"` in an initially empty set. -/
theorem C1_mergeAdd_idempotent_witness :
    ((addPaths (addPaths [] [xPathA]) [xPathB]).filter (fun p => p.id == "x")).length = 1 :=
  C1_mergeAdd_idempotent.2 [] [xPathA] [xPathB] "x" (by simp) (by simp [xPathA])

/-- C7: `addPaths` and `removePathsByIds` signal a no-op by returning the
very same set: when every id to add is already present the really-to-add
list is empty so the `pathsToReallyAdd.length === 0` branch returns the
input array itself, and when no path matches an id to remove the filter
keeps everything so the equal-length branch returns the input array
itself. -/
theorem C7_noop_returns_same_set :
    (∀ (S P : List Path), (∀ q ∈ P, q.id ∈ S.map Path.id) →
       pathsToReallyAdd (S.map Path.id) P = [] ∧ addPaths S P = S)
    ∧ (∀ (S : List Path) (L : List String), (∀ p ∈ S, p.id ∉ L) →
       S.filter (fun path => !(L.contains path.id)) = S ∧ removePathsByIds S L = S) := by
  constructor
  · intro S P h
    exact ⟨pathsToReallyAdd_eq_nil _ _ h, addPaths_eq_self _ _ h⟩
  · intro S L h
    have hf : S.filter (fun path => !(L.contains path.id)) = S := by
      rw [List.filter_eq_self]
      intro p hp
      simpa using h p hp
    exact ⟨hf, removePathsByIds_eq_self_of_filter _ _ hf⟩

/-- Witness for C7: re-adding an already-present id and removing an absent
id both return the input set unchanged. -/
theorem C7_noop_returns_same_set_witness :
    (pathsToReallyAdd ([xPathA].map Path.id) [xPathB] = [] ∧ addPaths [xPathA] [xPathB] = [xPathA])
    ∧ (([xPathA].filter (fun path => !(["y"].contains path.id))) = [xPathA]
       ∧ removePathsByIds [xPathA] ["y"] = [xPathA]) :=
  ⟨C7_noop_returns_same_set.1 [xPathA] [xPathB] (by simp [xPathA, xPathB]),
   C7_noop_returns_same_set.2 [xPathA] ["y"] (by simp [xPathA])⟩

/-- C10: `addPaths` deduplicates inside its input batch: starting from a set
with pairwise-distinct ids, the result again has pairwise-distinct ids, and
for an id not already present the batch's first path with that id is the
one inserted. -/
theorem C10_addPaths_preserves_nodup (S P : List Path) (h : (S.map Path.id).Nodup) :
    ((addPaths S P).map Path.id).Nodup
    ∧ ∀ (x : String) (q : Path), x ∉ S.map Path.id →
        P.find? (fun p => p.id == x) = some q → q ∈ addPaths S P := by
  refine ⟨nodup_ids_addPaths S P h, ?_⟩
  intro x q hx hf
  have hq := find?_mem_pathsToReallyAdd (S.map Path.id) P x q hx hf
  unfold addPaths
  split
  · next h0 =>
    rw [List.length_eq_zero.mp h0] at hq
    cases hq
  · next h0 =>
    exact List.mem_append_right _ hq

/-- Witness for C10: a batch containing two paths with the same id `"x"`
added to the empty set inserts only the first of them. -/
theorem C10_addPaths_preserves_nodup_witness :
    ((addPaths [] [xPathA, xPathB]).map Path.id).Nodup
    ∧ xPathA ∈ addPaths [] [xPathA, xPathB] :=
  ⟨(C10_addPaths_preserves_nodup [] [xPathA, xPathB] (by simp)).1,
   (C10_addPaths_preserves_nodup [] [xPathA, xPathB] (by simp)).2 "x" xPathA (by simp)
     (by simp [List.find?, xPathA])⟩

/-! ### C6 -/

theorem isCloser_iff_sqrt (p1 p2 : Point) :
    (isCloser p1 p2 3 = true) ↔
      Real.sqrt (((p1.x - p2.x : Int) : ℝ) ^ 2 + ((p1.y - p2.y : Int) : ℝ) ^ 2) ≤ 3 := by
  unfold isCloser
  rw [decide_eq_true_iff]
  have h3 : (3:ℝ) = Real.sqrt 9 := by
    rw [show (9:ℝ) = 3 ^ 2 by norm_num]
    exact (Real.sqrt_sq (by norm_num)).symm
  rw [h3, Real.sqrt_le_sqrt_iff (by norm_num)]
  constructor
  · intro h
    have h9 : ((p1.x - p2.x) ^ 2 + (p1.y - p2.y) ^ 2 : Int) ≤ 9 := by
      calc ((p1.x - p2.x) ^ 2 + (p1.y - p2.y) ^ 2 : Int) ≤ 3 ^ 2 := h
        _ = 9 := by norm_num
    exact_mod_cast h9
  · intro h
    have h9 : ((p1.x - p2.x) ^ 2 + (p1.y - p2.y) ^ 2 : Int) ≤ 9 := by exact_mod_cast h
    calc ((p1.x - p2.x) ^ 2 + (p1.y - p2.y) ^ 2 : Int) ≤ 9 := h9
      _ = 3 ^ 2 := by norm_num

/-- C6: `erase` with the fixed radius 3 returns exactly the ids of the
paths having a point within Euclidean distance 3 of the query point, the
membership decided by the square-root-free squared-distance comparison of
`isCloser`; on the set `[{id:"a", points:[(0,0),(10,10)]}]` and query
`(1,1)` it returns `["a"]`. -/
theorem C6_hitTest_radius3 :
    (∀ (paths : List Path) (p : Point) (i : String),
       i ∈ erase paths p ↔
         ∃ path, path ∈ paths ∧ path.id = i ∧
           ∃ q ∈ path.points,
             Real.sqrt (((p.x - q.x : Int) : ℝ) ^ 2 + ((p.y - q.y : Int) : ℝ) ^ 2) ≤ 3)
    ∧ erase [{ id := "a", color := "#000", width := 3,
               points := [Point.mk 0 0, Point.mk 10 10] }] (Point.mk 1 1) = ["a"] := by
  constructor
  · intro paths p i
    unfold erase
    rw [List.mem_map]
    constructor
    · rintro ⟨path, hmem, rfl⟩
      rw [List.mem_filter] at hmem
      obtain ⟨hp, hany⟩ := hmem
      rw [List.any_eq_true] at hany
      obtain ⟨q, hq, hclose⟩ := hany
      exact ⟨path, hp, rfl, q, hq, (isCloser_iff_sqrt p q).mp hclose⟩
    · rintro ⟨path, hp, rfl, q, hq, hd⟩
      refine ⟨path, ?_, rfl⟩
      rw [List.mem_filter]
      exact ⟨hp, List.any_eq_true.mpr ⟨q, hq, (isCloser_iff_sqrt p q).mpr hd⟩⟩
  · decide

/-- Witness for C9 at concrete inputs. -/
theorem C9_appendPoint_dedup_witness :
    pushPoint [Point.mk 1 2] (Point.mk 1 2) = [Point.mk 1 2]
    ∧ pushPoint [Point.mk 1 2] (Point.mk 3 4) = [Point.mk 1 2, Point.mk 3 4] :=
  ⟨(C9_appendPoint_dedup [Point.mk 1 2] (Point.mk 1 2)).1 (Point.mk 1 2) (by decide) rfl rfl,
   (C9_appendPoint_dedup [Point.mk 1 2] (Point.mk 3 4)).2.1 (by decide)⟩

/-! ### C2 -/

/-- C2: a draw gesture ending in pointer-up commits and emits nothing when
the in-progress path has exactly one recorded point, and commits the path
to the stroke set and emits exactly one added batch holding exactly that
path (with its recorded point sequence) when it has at least two points —
for the mouse-up handler, and likewise for the touch-end handler after its
final point push. -/
theorem C2_drawGestureUp :
    (∀ (s : CanvasManager) (dp : Path), s.tool = Tool.pen → s.drawingPath = some dp →
       (dp.points.length = 1 →
          (handleGlobalMouseUp s).1.paths = s.paths ∧ (handleGlobalMouseUp s).2 = []
          ∧ (handleGlobalMouseUp s).1.drawingPath = none)
       ∧ (2 ≤ dp.points.length →
          (handleGlobalMouseUp s).1.paths = s.paths ++ [dp]
          ∧ (handleGlobalMouseUp s).2 = [{ added := some [dp], removedIds := none }]
          ∧ (handleGlobalMouseUp s).1.drawingPath = none))
    ∧ (∀ (s : CanvasManager) (event : TouchEvent) (dp : Path) (p : Point),
        s.tool = Tool.pen → s.drawingPath = some dp →
        getPointFromTouchEvent s event false = some p →
        ((pushPoint dp.points p).length = 1 →
           (handleTouchEnd s event).1.paths = s.paths ∧ (handleTouchEnd s event).2 = []
           ∧ (handleTouchEnd s event).1.drawingPath = none)
        ∧ (2 ≤ (pushPoint dp.points p).length →
           (handleTouchEnd s event).1.paths
             = s.paths ++ [{ dp with points := pushPoint dp.points p }]
           ∧ (handleTouchEnd s event).2
             = [{ added := some [{ dp with points := pushPoint dp.points p }],
                  removedIds := none }]
           ∧ (handleTouchEnd s event).1.drawingPath = none)) := by
  constructor
  · intro s dp htool hdp
    constructor
    · intro h1
      have hnot : ¬(dp.points.length > 1) := by omega
      simp only [handleGlobalMouseUp, htool, hdp, hnot, if_false, ite_false]
      refine ⟨?_, ?_, ?_⟩ <;> trivial
    · intro h2
      have hgt : dp.points.length > 1 := by omega
      simp only [handleGlobalMouseUp, htool, hdp, hgt, if_true, ite_true]
      refine ⟨?_, ?_, ?_⟩ <;> trivial
  · intro s event dp p htool hdp hp
    constructor
    · intro h1
      have hnot : ¬((pushPoint dp.points p).length > 1) := by omega
      simp only [handleTouchEnd, htool, hdp, hp, hnot, if_false, ite_false]
      refine ⟨?_, ?_, ?_⟩ <;> trivial
    · intro h2
      have hgt : (pushPoint dp.points p).length > 1 := by omega
      simp only [handleTouchEnd, htool, hdp, hp, hgt, if_true, ite_true]
      refine ⟨?_, ?_, ?_⟩ <;> trivial

/-- Witness for C2: a one-point gesture commits nothing on mouse-up and on
touch-end, a two-point gesture commits and emits its path on mouse-up. -/
theorem C2_drawGestureUp_witness :
    ((handleGlobalMouseUp drawStateOne).1.paths = drawStateOne.paths
     ∧ (handleGlobalMouseUp drawStateOne).2 = []
     ∧ (handleGlobalMouseUp drawStateOne).1.drawingPath = none)
    ∧ ((handleGlobalMouseUp drawStateTwo).1.paths = drawStateTwo.paths ++ [twoPointPath]
       ∧ (handleGlobalMouseUp drawStateTwo).2
         = [{ added := some [twoPointPath], removedIds := none }]
       ∧ (handleGlobalMouseUp drawStateTwo).1.drawingPath = none)
    ∧ ((handleTouchEnd drawStateOne touchAtOrigin).1.paths = drawStateOne.paths
       ∧ (handleTouchEnd drawStateOne touchAtOrigin).2 = []
       ∧ (handleTouchEnd drawStateOne touchAtOrigin).1.drawingPath = none) :=
  ⟨(C2_drawGestureUp.1 drawStateOne onePointPath rfl rfl).1 (by decide),
   (C2_drawGestureUp.1 drawStateTwo twoPointPath rfl rfl).2 (by decide),
   (C2_drawGestureUp.2 drawStateOne touchAtOrigin onePointPath (Point.mk 0 0)
      rfl rfl (by decide)).1 (by decide)⟩

/-! ### C5 -/

/-- C5: pointer-up while erasing leaves the stroke set untouched (the code
returns the very same array) and emits nothing when the accumulated id set
matched no path; when at least one path matched, the matching paths are
filtered out of the stroke set and exactly one removed batch carrying the
accumulated id set is emitted. -/
theorem C5_eraseGestureUp (s : CanvasManager) (ids : List String)
    (htool : s.tool = Tool.eraser) (hids : s.erasingPathIds = some ids) :
    ((∀ p ∈ s.paths, p.id ∉ ids) →
       (handleGlobalMouseUp s).1.paths = s.paths ∧ (handleGlobalMouseUp s).2 = [])
    ∧ ((∃ p ∈ s.paths, p.id ∈ ids) →
       (handleGlobalMouseUp s).1.paths = s.paths.filter (fun p => !(ids.contains p.id))
       ∧ (handleGlobalMouseUp s).2 = [{ added := none, removedIds := some ids }]) := by
  constructor
  · intro h
    have hf : s.paths.filter (fun path => !(ids.contains path.id)) = s.paths := by
      rw [List.filter_eq_self]
      intro p hp
      simpa using h p hp
    have hlen : (s.paths.filter (fun path => !(ids.contains path.id))).length
        = s.paths.length := by rw [hf]
    simp only [handleGlobalMouseUp, htool, hids, removePaths, hlen, if_true, ite_true]
    refine ⟨?_, ?_⟩ <;> trivial
  · rintro ⟨p, hp, hpid⟩
    have hlt : (s.paths.filter (fun path => !(ids.contains path.id))).length
        < s.paths.length := by
      rw [List.length_filter_lt_length_iff_exists]
      refine ⟨p, hp, ?_⟩
      simp [hpid]
    have hlen : ¬((s.paths.filter (fun path => !(ids.contains path.id))).length
        = s.paths.length) := Nat.ne_of_lt hlt
    simp only [handleGlobalMouseUp, htool, hids, removePaths, hlen, if_false, ite_false]
    refine ⟨?_, ?_⟩ <;> trivial

/-- Witness for C5: a missing id leaves the set and emits nothing; a
matching id empties the set and emits one removed batch. -/
theorem C5_eraseGestureUp_witness :
    ((handleGlobalMouseUp eraseStateMiss).1.paths = eraseStateMiss.paths
     ∧ (handleGlobalMouseUp eraseStateMiss).2 = [])
    ∧ ((handleGlobalMouseUp eraseStateHit).1.paths
         = eraseStateHit.paths.filter (fun p => !((["x"] : List String).contains p.id))
       ∧ (handleGlobalMouseUp eraseStateHit).2
         = [{ added := none, removedIds := some ["x"] }]) :=
  ⟨(C5_eraseGestureUp eraseStateMiss ["y"] rfl rfl).1 (by decide),
   (C5_eraseGestureUp eraseStateHit ["x"] rfl rfl).2 ⟨xPathA, by decide, by decide⟩⟩

/-! ### C3 -/

/-- C3: panning from anchor `(100,100)` to `(90,95)` adds the inverse delta
`(10,5)` per axis in the mouse-move and touch-move handlers, and scroll-apply
commits the buffered values into `scrollLeft`/`scrollTop`; but the touch-end
pan branch adds both deltas to `bufferedScrollLeft` (ToolBar.tsx:889-890),
producing `(15,0)` instead of `(10,5)`. -/
theorem C3_panAccumulation_touchEnd_divergence :
    ((handleMouseMove panMouseState { clientX := 90, clientY := 95 }).bufferedScrollLeft = 10
     ∧ (handleMouseMove panMouseState { clientX := 90, clientY := 95 }).bufferedScrollTop = 5)
    ∧ ((runFrame id (handleMouseMove panMouseState { clientX := 90, clientY := 95 })
          Frame.scrollFrame).scrollLeft = 10
       ∧ (runFrame id (handleMouseMove panMouseState { clientX := 90, clientY := 95 })
          Frame.scrollFrame).scrollTop = 5)
    ∧ ((handleTouchMove panTouchState touchAt9095).bufferedScrollLeft = 10
       ∧ (handleTouchMove panTouchState touchAt9095).bufferedScrollTop = 5)
    ∧ ((handleTouchEnd panTouchState touchAt9095).1.bufferedScrollLeft = 15
       ∧ (handleTouchEnd panTouchState touchAt9095).1.bufferedScrollTop = 0) := by
  decide

/-! ### C4 -/

/-- Counterexample for C4: a draw frame whose callback re-requests a redraw
while `tickingDraw` is still set schedules nothing — the queue stays empty
rather than holding a fresh draw frame — because `tickDraw`'s closure clears
the pending flag only after running its callback. -/
theorem C4_clearBeforeInvoke_counterexample :
    (runFrame tickDraw pendingDrawState Frame.drawFrame).frameQueue = []
    ∧ ¬((runFrame tickDraw pendingDrawState Frame.drawFrame).frameQueue
        = [Frame.drawFrame]) := by
  decide

/-- C4 (amended): both channels are idempotent while pending; the
scroll-apply closure clears its pending flag before invoking its trailing
draw callback, so a callback re-requesting scroll-apply schedules a fresh
frame; the redraw closure clears its pending flag only after its callback,
so a callback re-requesting redraw is swallowed. -/
theorem C4_scheduler_coalescing_amended :
    (∀ s : CanvasManager, s.tickingDraw = true → tickDraw s = s)
    ∧ (∀ s : CanvasManager, s.tickingScroll = true → tickScroll s = s)
    ∧ (∀ s : CanvasManager, tickDraw (tickDraw s) = tickDraw s)
    ∧ (∀ s : CanvasManager, tickScroll (tickScroll s) = tickScroll s)
    ∧ (∀ s : CanvasManager, s.tickingDraw = true →
         runFrame tickDraw s Frame.drawFrame = { s with tickingDraw := false })
    ∧ (∀ s : CanvasManager, runFrame tickScroll s Frame.scrollFrame
         = { s with scrollLeft := s.bufferedScrollLeft, scrollTop := s.bufferedScrollTop,
                    tickingScroll := true,
                    frameQueue := s.frameQueue ++ [Frame.scrollFrame] }) := by
  refine ⟨?_, ?_, ?_, ?_, ?_, ?_⟩
  · intro s h
    simp [tickDraw, h]
  · intro s h
    simp [tickScroll, h]
  · intro s
    by_cases h : s.tickingDraw
    · simp [tickDraw, h]
    · simp [tickDraw, h]
  · intro s
    by_cases h : s.tickingScroll
    · simp [tickScroll, h]
    · simp [tickScroll, h]
  · intro s h
    simp [runFrame, frameSteps, execStep, tickDraw, h]
  · intro s
    simp [runFrame, frameSteps, execStep, tickScroll]

/-- Witness for C4 (amended) at concrete pending states. -/
theorem C4_scheduler_coalescing_amended_witness :
    tickDraw pendingDrawState = pendingDrawState
    ∧ tickScroll pendingScrollState = pendingScrollState
    ∧ runFrame tickDraw pendingDrawState Frame.drawFrame
        = { pendingDrawState with tickingDraw := false } :=
  ⟨C4_scheduler_coalescing_amended.1 pendingDrawState rfl,
   C4_scheduler_coalescing_amended.2.1 pendingScrollState rfl,
   C4_scheduler_coalescing_amended.2.2.2.2.1 pendingDrawState rfl⟩

end Draw
